import Mathlib

/-!
Verification of the query-result cache of `src/utils/cache_consultas.py`
(`GestorCacheConsultas`).

The embedding is a shallow one:

* A pandas `DataFrame` is modelled as `DF := List (List Int)` (a list of rows);
  `df.empty` corresponds to `df = []` and `len(df)` to `df.length`.
* Python object identity (needed for the "returned value is an independent
  copy" claims) is modelled with an explicit heap `List DF`; a reference is an
  index into the heap, `x.copy()` allocates a fresh cell at the end of the
  heap, and mutation is `List.set`.
* The in-memory cache `self._cache_memoria` (a Python `dict`, which preserves
  insertion order) is an insertion-ordered association list
  `List (String × Entrada)`; overwriting an existing key keeps its position
  (`actualizar`), as Python dict assignment does.
* The disk tier (one pickle file `<clave>.pkl` per key, whose `st_mtime` is
  the write time) is an association list `List (String × (DF × Int))`
  holding the serialized snapshot and its modification time.
* The clock (`datetime.now()`) is passed explicitly as `ahora : Int`,
  seconds; `timedelta(minutes=d)` is `d * 60`.
* Two external library calls are parameters of the configuration:
  `hashHex`, modelling `hashlib.sha256(...).hexdigest()` (a fixed
  deterministic function of the input string), and `pickleSize`, modelling
  `len(pickle.dumps(df))` (a fixed deterministic function of the value).
  Nothing below depends on any property of these functions beyond
  determinism; concrete executable stand-ins are provided for witnesses.
-/

/-- A pandas DataFrame, modelled as its list of rows. -/
abbrev DF := List (List Int)

/-- One value of `self._cache_memoria`: the tuple
`(resultado, timestamp, tamano_bytes)` of the source, with `resultado`
a heap reference (the dict holds the object itself). -/
structure Entrada where
  valor : Nat
  timestamp : Int
  tamano : Nat
deriving DecidableEq

/-- The mutable state of `GestorCacheConsultas`: `self._cache_memoria`,
the `cache/` directory contents, and the three counters. -/
structure Estado where
  memoria : List (String × Entrada)
  disco : List (String × (DF × Int))
  hits : Nat
  misses : Nat
  consultas : Nat
deriving DecidableEq

/-- The configuration resolved in `_inicializar_cache`, plus the two
external library functions the class calls. -/
structure Config where
  habilitado : Bool
  duracion : Int
  tamanoMax : Nat
  limiteMB : Nat
  hashHex : String → String
  pickleSize : DF → Nat

/-- The state right after `_inicializar_cache`: empty tiers, zero counters. -/
def estadoInicial : Estado := ⟨[], [], 0, 0, 0⟩

/-- Python `s.strip()`: drop whitespace from both ends. -/
def recortar (l : List Char) : List Char :=
  ((l.dropWhile Char.isWhitespace).reverse.dropWhile Char.isWhitespace).reverse

/-- The denylist `funciones_tiempo` of `_es_consulta_cacheable`. -/
def funcionesTiempo : List String :=
  ["NOW()", "CURRENT_TIMESTAMP", "CURRENT_DATE", "CURRENT_TIME", "RAND()"]

/-- Python `s.startswith(t)` on char lists. -/
def esPrefijo : List Char → List Char → Bool
  | [], _ => true
  | _ :: _, [] => false
  | a :: as, b :: bs => a = b && esPrefijo as bs

/-- Python `t in s` (contiguous substring test) on char lists. -/
def esInfijo (pat : List Char) : List Char → Bool
  | [] => esPrefijo pat []
  | c :: r => esPrefijo pat (c :: r) || esInfijo pat r

/-- `GestorCacheConsultas._es_consulta_cacheable`: `SELECT`-prefixed after
upper-casing and stripping, no time/random functions, at most 5000 chars. -/
def esCacheable (q : String) : Bool :=
  let consultaUpper := recortar (q.data.map Char.toUpper)
  if ¬ (esPrefijo "SELECT".data consultaUpper) then false
  else if funcionesTiempo.any (fun f => esInfijo f.data consultaUpper) then false
  else if q.length > 5000 then false
  else true

/-- Python `str.split()` (no separator): split on runs of whitespace,
dropping empty pieces.  `acc` is the reversed current word. -/
def pySplitAcum : List Char → List Char → List (List Char)
  | [], acc => if acc = [] then [] else [acc.reverse]
  | c :: r, acc =>
    if c.isWhitespace then
      if acc = [] then pySplitAcum r [] else acc.reverse :: pySplitAcum r []
    else pySplitAcum r (c :: acc)

/-- `' '.join(ws)`: single spaces between words. -/
def unirConEspacios : List (List Char) → List Char
  | [] => []
  | [w] => w
  | w :: ws => w ++ ' ' :: unirConEspacios ws

/-- Line 94 of the source: `' '.join(consulta_sql.lower().split())`. -/
def normalizar (q : String) : String :=
  String.mk (unirConEspacios (pySplitAcum (q.data.map Char.toLower) []))

/-- Python string `<` (lexicographic comparison by code point), on char
lists; used by `sorted(parametros.items())` for the first tuple component. -/
def menorLex : List Char → List Char → Bool
  | [], [] => false
  | [], _ :: _ => true
  | _ :: _, [] => false
  | a :: as, b :: bs =>
    if a.toNat < b.toNat then true
    else if b.toNat < a.toNat then false
    else menorLex as bs

/-- Python tuple `<=` on `(key, value)` pairs: lexicographic. -/
def pairLe (a b : String × Int) : Bool :=
  if menorLex a.1.data b.1.data then true
  else if menorLex b.1.data a.1.data then false
  else decide (a.2 ≤ b.2)

/-- Stable insertion into a sorted list: the new element goes before the
first element it is `le`-related to (so equal elements keep their original
relative order). -/
def insertarOrd (le : α → α → Bool) (x : α) : List α → List α
  | [] => [x]
  | y :: t => if le x y then x :: y :: t else y :: insertarOrd le x t

/-- Stable sort (the semantics of Python `sorted`). -/
def ordenar (le : α → α → Bool) (l : List α) : List α :=
  l.foldr (insertarOrd le) []

/-- Python `str` of one `(key, value)` item, e.g. `('a', 1)`.
Keys are assumed quote-free, as the repository's parameter names are. -/
def reprPar (kv : String × Int) : String :=
  "('" ++ kv.1 ++ "', " ++ toString kv.2 ++ ")"

/-- Python `str(sorted(parametros.items()))`. -/
def reprParamsOrdenados (ps : List (String × Int)) : String :=
  "[" ++ String.intercalate ", " ((ordenar pairLe ps).map reprPar) ++ "]"

/-- The string that `_generar_clave_cache` hashes: the normalized query,
with `str(sorted(parametros.items()))` appended when `parametros` is truthy
(neither `None` nor the empty dict). -/
def contenidoCache (q : String) (p : Option (List (String × Int))) : String :=
  match p with
  | some ps => if ps.isEmpty then normalizar q else normalizar q ++ reprParamsOrdenados ps
  | none => normalizar q

/-- `GestorCacheConsultas._generar_clave_cache`: the first 16 characters
(`hexdigest()[:16]`; the digest is ASCII, so characters coincide with
`List Char` elements) of the hex digest of the composed content. -/
def generarClave (cfg : Config) (q : String) (p : Option (List (String × Int))) : String :=
  String.mk ((cfg.hashHex (contenidoCache q p)).data.take 16)

/-- Python dict assignment `m[k] = v`: overwrite in place if the key is
present (keeping its position in insertion order), else append. -/
def actualizar (m : List (String × β)) (k : String) (v : β) : List (String × β) :=
  match m with
  | [] => [(k, v)]
  | (k', v') :: t => if k' = k then (k, v) :: t else (k', v') :: actualizar t k v

/-- Python `del m[k]` (and `Path.unlink(missing_ok=True)` for the disk
tier): remove the entry with the given key. -/
def borrar (m : List (String × β)) (k : String) : List (String × β) :=
  m.filter (fun e => decide (e.1 ≠ k))

/-- `key=lambda x: x[1][1]` of `_limpiar_cache_exceso`: order memory items
by their stored timestamp. -/
def leTs (a b : String × Entrada) : Bool :=
  decide (a.2.timestamp ≤ b.2.timestamp)

/-- `GestorCacheConsultas._limpiar_cache_exceso` (lines 212-243): when the
memory tier exceeds `tamano_maximo_cache`, sort the items by timestamp
(Python `sorted` is stable), delete the first
`min(max(len - max, int(len * 0.2)), len)` of them from the memory tier
*and* unlink each one's disk file.  `int(len * 0.2)` truncates, which for
the entry counts in scope is exactly `len / 5` (floor). -/
def limpiarCacheExceso (cfg : Config) (st : Estado) : Estado :=
  if st.memoria.length ≤ cfg.tamanoMax then st
  else
    let ordenados := ordenar leTs st.memoria
    let cantidad := min (max (st.memoria.length - cfg.tamanoMax) (st.memoria.length / 5))
      ordenados.length
    let victimas := (ordenados.take cantidad).map Prod.fst
    { st with memoria := st.memoria.filter (fun e => decide (e.1 ∉ victimas)),
              disco := st.disco.filter (fun e => decide (e.1 ∉ victimas)) }

/-- `GestorCacheConsultas.guardar_en_cache` (lines 179-210).  The heap `h`
carries the DataFrame objects; `rref` is the caller's `resultado`.
`discoEscribible = false` models `open(archivo_cache, 'wb')` raising (for
example an unwritable directory): the exception is caught by the
`except` at line 209, so the function still returns normally, but the
disk write, the `consultas_cacheadas` increment and the eviction check
(all after the failing `open`) do not happen, while the memory-tier
insertion at line 198 has already happened. -/
def guardar (cfg : Config) (st : Estado) (h : List DF) (ahora : Int) (q : String)
    (p : Option (List (String × Int))) (rref : Nat) (discoEscribible : Bool) :
    Estado × List DF :=
  let resultado := h.getD rref []
  if cfg.habilitado && esCacheable q && !resultado.isEmpty then
    let clave := generarClave cfg q p
    let tamano := cfg.pickleSize resultado
    if tamano > cfg.limiteMB * 1024 * 1024 then (st, h)
    else
      let h1 := h ++ [resultado]
      let st1 := { st with memoria := actualizar st.memoria clave ⟨h.length, ahora, tamano⟩ }
      if discoEscribible then
        let st2 := { st1 with disco := actualizar st1.disco clave (resultado, ahora),
                              consultas := st1.consultas + 1 }
        if st2.memoria.length > cfg.tamanoMax then (limpiarCacheExceso cfg st2, h1)
        else (st2, h1)
      else (st1, h1)
  else (st, h)

/-- The disk-tier half of `obtener_desde_cache` (lines 149-176): a fresh
file is unpickled, the loaded object is put back into the memory tier with
the current time and the file's `st_size`, and a copy of it is returned; a
stale file is unlinked and the lookup falls through to a miss. -/
def obtenerDisco (cfg : Config) (st : Estado) (h : List DF) (ahora : Int) (clave : String) :
    Option Nat × Estado × List DF :=
  match List.lookup clave st.disco with
  | some df_mtime =>
    if ahora - df_mtime.2 < cfg.duracion * 60 then
      let h1 := h ++ [df_mtime.1]
      let tamano := cfg.pickleSize df_mtime.1
      let st1 := { st with memoria := actualizar st.memoria clave ⟨h.length, ahora, tamano⟩,
                           hits := st.hits + 1 }
      (some h1.length, st1, h1 ++ [h1.getD h.length []])
    else
      (none, { st with disco := borrar st.disco clave, misses := st.misses + 1 }, h)
  | none => (none, { st with misses := st.misses + 1 }, h)

/-- `GestorCacheConsultas.obtener_desde_cache` (lines 126-176): `none`
models Python `None` (a miss).  A fresh memory entry is served as a copy
(`resultado.copy()`, modelled as a fresh heap cell); an expired memory
entry is deleted and the lookup falls through to the disk tier. -/
def obtener (cfg : Config) (st : Estado) (h : List DF) (ahora : Int) (q : String)
    (p : Option (List (String × Int))) : Option Nat × Estado × List DF :=
  if !cfg.habilitado then (none, st, h)
  else if !esCacheable q then (none, st, h)
  else
    let clave := generarClave cfg q p
    match List.lookup clave st.memoria with
    | some e =>
      if ahora - e.timestamp < cfg.duracion * 60 then
        (some h.length, { st with hits := st.hits + 1 }, h ++ [h.getD e.valor []])
      else obtenerDisco cfg { st with memoria := borrar st.memoria clave } h ahora clave
    | none => obtenerDisco cfg st h ahora clave

/-- The value a lookup result denotes: the DataFrame at the returned
reference, read in the returned heap. -/
def valorDe (r : Option Nat × Estado × List DF) : Option DF :=
  r.1.map (fun i => r.2.2.getD i [])

/-- `invalidar_cache(None)` / falsy-pattern branch (lines 352-361): clear
the memory tier and delete every disk file. -/
def limpiarTodo (st : Estado) : Estado :=
  { st with memoria := [], disco := [] }

/-- `GestorCacheConsultas.invalidar_cache` (lines 317-361).  Python's
`if patron:` is false both for `None` and for the empty string, so both
fall into the clear-everything branch.  With a truthy pattern, the code
keeps the memory keys `clave` such that `patron.lower()` occurs in
`self._generar_clave_cache(clave).lower()` — the pattern is matched
against the *hex digest of the stored (already hashed) key*, not against
any query text — and deletes those keys from memory and their disk files. -/
def invalidar (cfg : Config) (st : Estado) (patron : Option String) : Estado :=
  match patron with
  | some pat =>
    if pat = "" then limpiarTodo st
    else
      let patLower := String.mk (pat.data.map Char.toLower)
      let clavesAEliminar := (st.memoria.map Prod.fst).filter (fun clave =>
        let base := if esInfijo "_#_".data clave.data
          then (clave.splitOn "_#_").headD "" else clave
        esInfijo patLower.data ((generarClave cfg base none).data.map Char.toLower))
      { st with memoria := st.memoria.filter (fun e => decide (e.1 ∉ clavesAEliminar)),
                disco := st.disco.filter (fun e => decide (e.1 ∉ clavesAEliminar)) }
  | none => limpiarTodo st

/-- Python `int(s)` on a decimal string: optional surrounding whitespace,
optional sign, at least one digit; `none` models `ValueError`. -/
def pyIntDigitos : List Char → Option Nat
  | [] => none
  | [c] => if c.isDigit then some (c.toNat - 48) else none
  | c :: r => if c.isDigit then (pyIntDigitos r).map (fun n => (c.toNat - 48) * 10 ^ r.length + n)
              else none

/-- Python `int(s)` for a (possibly signed) decimal literal. -/
def pyInt (s : String) : Option Int :=
  match recortar s.data with
  | '-' :: ds => (pyIntDigitos ds).map (fun n => -(n : Int))
  | '+' :: ds => (pyIntDigitos ds).map (fun n => (n : Int))
  | ds => (pyIntDigitos ds).map (fun n => (n : Int))

/-- `_inicializar_cache` lines 62-64: resolve the configuration from the
environment strings.  `int(...)` raising `ValueError` on a malformed
string propagates out of the constructor (`none`); any successfully
parsed value — negative included — is stored without validation. -/
def inicializarConfig (envDuracion envTamano : String) : Option (Int × Int) :=
  match pyInt envDuracion, pyInt envTamano with
  | some d, some t => some (d, t)
  | _, _ => none

theorem lookup_actualizar (m : List (String × β)) (k : String) (v : β) :
    List.lookup k (actualizar m k v) = some v := by
  induction m with
  | nil => simp [actualizar, List.lookup]
  | cons e t ih =>
    obtain ⟨k', v'⟩ := e
    by_cases hk : k' = k
    · simp [actualizar, hk, List.lookup]
    · have hbeq : (k == k') = false := by simp [Ne.symm hk]
      simp [actualizar, hk, List.lookup, hbeq, ih]

theorem actualizar_fresh (m : List (String × β)) (k : String) (v : β)
    (hfresh : k ∉ m.map Prod.fst) : actualizar m k v = m ++ [(k, v)] := by
  induction m with
  | nil => simp [actualizar]
  | cons e t ih =>
    simp only [List.map_cons, List.mem_cons] at hfresh
    push_neg at hfresh
    simp [actualizar, Ne.symm hfresh.1, ih hfresh.2]

theorem length_actualizar_le (m : List (String × β)) (k : String) (v : β) :
    (actualizar m k v).length ≤ m.length + 1 := by
  induction m with
  | nil => simp [actualizar]
  | cons e t ih =>
    by_cases hk : e.1 = k
    · obtain ⟨k', v'⟩ := e; simp_all [actualizar]
    · obtain ⟨k', v'⟩ := e
      simp only at hk
      simp only [actualizar, if_neg hk, List.length_cons]
      omega

theorem lookup_borrar (m : List (String × β)) (k : String) :
    List.lookup k (borrar m k) = none := by
  induction m with
  | nil => simp [borrar]
  | cons e t ih =>
    obtain ⟨k', v'⟩ := e
    by_cases hk : k' = k
    · simpa [borrar, hk] using ih
    · have hbeq : (k == k') = false := by simp [Ne.symm hk]
      simpa [borrar, hk, List.lookup, hbeq] using ih

theorem getD_append_of_lt (l l' : List α) (i : Nat) (d : α) (hi : i < l.length) :
    (l ++ l').getD i d = l.getD i d := by
  induction l generalizing i with
  | nil => simp at hi
  | cons a t ih =>
    cases i with
    | zero => simp
    | succ j =>
      simp only [List.length_cons, Nat.succ_lt_succ_iff] at hi
      simpa using ih j hi

theorem getD_append_length (l : List α) (a : α) (l' : List α) (d : α) :
    (l ++ a :: l').getD l.length d = a := by
  induction l with
  | nil => simp
  | cons b t ih => simpa using ih

theorem getD_set_of_ne (l : List α) (i j : Nat) (v d : α) (hij : i ≠ j) :
    (l.set i v).getD j d = l.getD j d := by
  induction l generalizing i j with
  | nil => simp
  | cons a t ih =>
    cases i with
    | zero =>
      cases j with
      | zero => exact absurd rfl hij
      | succ j' => simp
    | succ i' =>
      cases j with
      | zero => simp
      | succ j' => simpa using ih i' j' (by omega)

theorem perm_insertarOrd (le : α → α → Bool) (x : α) (l : List α) :
    List.Perm (insertarOrd le x l) (x :: l) := by
  induction l with
  | nil => exact List.Perm.refl _
  | cons y t ih =>
    by_cases h : le x y = true
    · simp [insertarOrd, h]
    · simp only [insertarOrd, if_neg h]
      exact (ih.cons y).trans (List.Perm.swap x y t)

theorem perm_ordenar (le : α → α → Bool) (l : List α) : List.Perm (ordenar le l) l := by
  induction l with
  | nil => exact List.Perm.refl _
  | cons x t ih =>
    exact (perm_insertarOrd le x (ordenar le t)).trans (ih.cons x)

theorem pairwise_insertarOrd (le : α → α → Bool)
    (htot : ∀ a b, le a b = true ∨ le b a = true)
    (htrans : ∀ a b c, le a b = true → le b c = true → le a c = true)
    (x : α) (l : List α) (hl : l.Pairwise (fun a b => le a b = true)) :
    (insertarOrd le x l).Pairwise (fun a b => le a b = true) := by
  induction l with
  | nil => simp [insertarOrd]
  | cons y t ih =>
    rw [List.pairwise_cons] at hl
    obtain ⟨hy, ht⟩ := hl
    by_cases h : le x y = true
    · simp only [insertarOrd, if_pos h, List.pairwise_cons]
      refine ⟨?_, ?_⟩
      · intro z hz
        rcases List.mem_cons.mp hz with hz | hz
        · exact hz ▸ h
        · exact htrans x y z h (hy z hz)
      · exact ⟨hy, ht⟩
    · have hyx : le y x = true := (htot x y).resolve_left h
      simp only [insertarOrd, if_neg h, List.pairwise_cons]
      refine ⟨?_, ih ht⟩
      intro z hz
      rcases List.mem_cons.mp ((perm_insertarOrd le x t).mem_iff.mp hz) with hz' | hz'
      · exact hz' ▸ hyx
      · exact hy z hz'

theorem pairwise_ordenar (le : α → α → Bool)
    (htot : ∀ a b, le a b = true ∨ le b a = true)
    (htrans : ∀ a b c, le a b = true → le b c = true → le a c = true)
    (l : List α) : (ordenar le l).Pairwise (fun a b => le a b = true) := by
  induction l with
  | nil => simp [ordenar]
  | cons x t ih => exact pairwise_insertarOrd le htot htrans x (ordenar le t) ih

theorem sorted_perm_eq (le : α → α → Bool)
    (hanti : ∀ a b, le a b = true → le b a = true → a = b) :
    ∀ l₁ l₂ : List α, List.Perm l₁ l₂ →
      l₁.Pairwise (fun a b => le a b = true) →
      l₂.Pairwise (fun a b => le a b = true) → l₁ = l₂
  | [], l₂, hp, _, _ => (hp.nil_eq).symm ▸ rfl
  | x :: t, [], hp, _, _ => absurd hp.symm.nil_eq (by simp)
  | x :: t, y :: t₂, hp, hs₁, hs₂ => by
    rw [List.pairwise_cons] at hs₁ hs₂
    obtain ⟨hx, ht⟩ := hs₁
    obtain ⟨hy, ht₂⟩ := hs₂
    have hxy : x = y := by
      rcases List.mem_cons.mp (hp.mem_iff.mp (List.mem_cons_self x t)) with h1 | h1
      · exact h1
      · rcases List.mem_cons.mp (hp.symm.mem_iff.mp (List.mem_cons_self y t₂)) with h2 | h2
        · exact h2.symm
        · exact hanti x y (hx y h2) (hy x h1)
    subst hxy
    have : t = t₂ := sorted_perm_eq le hanti t t₂ (hp.cons_inv) ht ht₂
    rw [this]

theorem menorLex_cons_iff (x y : Char) (as bs : List Char) :
    menorLex (x :: as) (y :: bs) = true ↔
      x.toNat < y.toNat ∨ (x.toNat = y.toNat ∧ menorLex as bs = true) := by
  rcases Nat.lt_trichotomy x.toNat y.toNat with h | h | h
  · simp [menorLex, h]
  · have h1 : ¬ x.toNat < y.toNat := by omega
    have h2 : ¬ y.toNat < x.toNat := by omega
    simp [menorLex, h1, h2, h]
  · have h1 : ¬ x.toNat < y.toNat := by omega
    have h3 : x.toNat ≠ y.toNat := by omega
    simp [menorLex, h1, h, h3]

theorem menorLex_trans : ∀ a b c : List Char,
    menorLex a b = true → menorLex b c = true → menorLex a c = true
  | [], [], _, h1, _ => by simp [menorLex] at h1
  | [], _ :: _, [], _, h2 => by simp [menorLex] at h2
  | [], _ :: _, _ :: _, _, _ => by simp [menorLex]
  | _ :: _, [], _, h1, _ => by simp [menorLex] at h1
  | _ :: _, _ :: _, [], _, h2 => by simp [menorLex] at h2
  | x :: as, y :: bs, z :: cs, h1, h2 => by
    rw [menorLex_cons_iff] at h1 h2 ⊢
    rcases h1 with h1 | ⟨he1, hm1⟩ <;> rcases h2 with h2 | ⟨he2, hm2⟩
    · exact Or.inl (by omega)
    · exact Or.inl (by omega)
    · exact Or.inl (by omega)
    · exact Or.inr ⟨by omega, menorLex_trans as bs cs hm1 hm2⟩

theorem menorLex_irrefl : ∀ l : List Char, menorLex l l = false
  | [] => rfl
  | _ :: as => by simp [menorLex, menorLex_irrefl as]

theorem menorLex_asymm (a b : List Char) (h : menorLex a b = true) : menorLex b a = false := by
  by_contra hc
  rw [Bool.not_eq_false] at hc
  have h2 := menorLex_trans _ _ _ h hc
  rw [menorLex_irrefl] at h2
  exact absurd h2 (by simp)

theorem eq_of_menorLex_false : ∀ a b : List Char,
    menorLex a b = false → menorLex b a = false → a = b
  | [], [], _, _ => rfl
  | [], _ :: _, h1, _ => by simp [menorLex] at h1
  | _ :: _, [], _, h2 => by simp [menorLex] at h2
  | x :: as, y :: bs, h1, h2 => by
    rw [Bool.eq_false_iff, Ne, menorLex_cons_iff] at h1 h2
    push_neg at h1 h2
    obtain ⟨hle1, himp1⟩ := h1
    obtain ⟨hle2, himp2⟩ := h2
    have hxy : x.toNat = y.toNat := Nat.le_antisymm hle2 hle1
    have hx : x = y := Char.eq_of_val_eq (UInt32.toNat.inj hxy)
    have has : as = bs :=
      eq_of_menorLex_false as bs
        (by simpa using himp1 hxy) (by simpa using himp2 hxy.symm)
    rw [hx, has]

theorem pairLe_total (a b : String × Int) : pairLe a b = true ∨ pairLe b a = true := by
  by_cases h1 : menorLex a.1.data b.1.data = true
  · exact Or.inl (by simp [pairLe, h1])
  · by_cases h2 : menorLex b.1.data a.1.data = true
    · exact Or.inr (by simp [pairLe, h2])
    · rcases Int.le_total a.2 b.2 with h | h
      · exact Or.inl (by simp [pairLe, h1, h2, h])
      · exact Or.inr (by simp [pairLe, h1, h2, h])

theorem pairLe_trans (a b c : String × Int)
    (h1 : pairLe a b = true) (h2 : pairLe b c = true) : pairLe a c = true := by
  simp only [pairLe] at h1 h2 ⊢
  by_cases hab : menorLex a.1.data b.1.data = true
  · by_cases hbc : menorLex b.1.data c.1.data = true
    · simp [menorLex_trans _ _ _ hab hbc]
    · rw [if_neg hbc] at h2
      by_cases hcb : menorLex c.1.data b.1.data = true
      · simp [if_pos hcb] at h2
      · have : b.1.data = c.1.data :=
          eq_of_menorLex_false _ _ (by simpa using hbc) (by simpa using hcb)
        simp [← this, hab]
  · rw [if_neg hab] at h1
    by_cases hba : menorLex b.1.data a.1.data = true
    · simp [if_pos hba] at h1
    · have hab' : a.1.data = b.1.data :=
        eq_of_menorLex_false _ _ (by simpa using hab) (by simpa using hba)
      rw [if_neg hba] at h1
      by_cases hbc : menorLex b.1.data c.1.data = true
      · simp [hab', hbc]
      · rw [if_neg hbc] at h2
        by_cases hcb : menorLex c.1.data b.1.data = true
        · simp [if_pos hcb] at h2
        · have hbc' : b.1.data = c.1.data :=
            eq_of_menorLex_false _ _ (by simpa using hbc) (by simpa using hcb)
          rw [if_neg hcb] at h2
          simp only [decide_eq_true_eq] at h1 h2
          have hac : a.1.data = c.1.data := hab'.trans hbc'
          have hm1 : ¬ menorLex a.1.data c.1.data = true := by
            rw [hac, menorLex_irrefl]; simp
          have hm2 : ¬ menorLex c.1.data a.1.data = true := by
            rw [← hac, menorLex_irrefl]; simp
          rw [if_neg hm1, if_neg hm2]
          simp [Int.le_trans h1 h2]

theorem cadena_ext : ∀ {s t : String}, s.data = t.data → s = t
  | ⟨_⟩, ⟨_⟩, h => congrArg String.mk h

theorem pairLe_antisymm (a b : String × Int)
    (h1 : pairLe a b = true) (h2 : pairLe b a = true) : a = b := by
  simp only [pairLe] at h1 h2
  by_cases hab : menorLex a.1.data b.1.data = true
  · have hba := menorLex_asymm a.1.data b.1.data hab
    rw [if_neg (by simp [hba]), if_pos hab] at h2
    exact absurd h2 (by simp)
  · by_cases hba : menorLex b.1.data a.1.data = true
    · rw [if_neg (by simpa using hab), if_pos hba] at h1
      exact absurd h1 (by simp)
    · have hk : a.1.data = b.1.data :=
        eq_of_menorLex_false _ _ (by simpa using hab) (by simpa using hba)
    
      have hs : a.1 = b.1 := cadena_ext hk
      rw [if_neg (by simpa using hab), if_neg (by simpa using hba)] at h1
      rw [if_neg (by simpa using hba), if_neg (by simpa using hab)] at h2
      simp only [decide_eq_true_eq] at h1 h2
      have hv : a.2 = b.2 := Int.le_antisymm h1 h2
      exact Prod.ext hs hv

theorem eq_of_nodup_claves {β : Type _} : ∀ (l : List (String × β)),
    (l.map Prod.fst).Nodup → ∀ a b : String × β, a ∈ l → b ∈ l → a.1 = b.1 → a = b
  | [], _, a, _, ha, _, _ => absurd ha (by simp)
  | x :: t, hn, a, b, ha, hb, hfst => by
    rw [List.map_cons, List.nodup_cons] at hn
    obtain ⟨hx, hnt⟩ := hn
    rcases List.mem_cons.mp ha with ha' | ha' <;> rcases List.mem_cons.mp hb with hb' | hb'
    · rw [ha', hb']
    · exact absurd (List.mem_map.mpr ⟨b, hb', by rw [← hfst, ha']⟩) hx
    · exact absurd (List.mem_map.mpr ⟨a, ha', by rw [hfst, hb']⟩) hx
    · exact eq_of_nodup_claves t hnt a b ha' hb' hfst

/-- One step of an alternative (right-fold) word-splitting algorithm:
the accumulator is (current word, finished words). -/
def paso (c : Char) (acc : List Char × List (List Char)) : List Char × List (List Char) :=
  if c.isWhitespace then ([], if acc.1 = [] then acc.2 else acc.1 :: acc.2)
  else (c :: acc.1, acc.2)

/-- Close the accumulator: flush a pending word. -/
def cerrar (acc : List Char × List (List Char)) : List (List Char) :=
  if acc.1 = [] then acc.2 else acc.1 :: acc.2

/-- The maximal non-whitespace runs of `l`, computed by a right fold —
an algorithm independent of the left-scanning `pySplitAcum`. -/
def juntarPalabras (l : List Char) : List (List Char) :=
  cerrar (l.foldr paso ([], []))

/-- The case-folded word sequence of a query string.  Two query texts
"differ only in letter case or in whitespace (runs of whitespace,
leading/trailing whitespace)" exactly when their word sequences agree. -/
def palabrasClave (s : String) : List (List Char) :=
  juntarPalabras (s.data.map Char.toLower)

theorem pySplitAcum_eq : ∀ (l : List Char) (acc : List Char),
    pySplitAcum l acc =
      cerrar (acc.reverse ++ (l.foldr paso ([], [])).1, (l.foldr paso ([], [])).2)
  | [], acc => by
    by_cases h : acc = []
    · simp [h, pySplitAcum, cerrar]
    · simp [pySplitAcum, cerrar, h]
  | c :: r, acc => by
    by_cases hw : c.isWhitespace
    · simp only [pySplitAcum, hw, if_true, List.foldr_cons, paso]
      rw [pySplitAcum_eq r []]
      by_cases h : acc = []
      · subst h
        simp [cerrar]
      · simp only [if_neg h, cerrar, List.nil_append, List.reverse_nil]
        by_cases hF : (r.foldr paso ([], [])).1 = []
        · simp [hF, h]
        · simp [hF, h]
    · simp only [pySplitAcum, hw, if_false, List.foldr_cons, paso]
      rw [pySplitAcum_eq r (c :: acc)]
      simp [cerrar, List.append_assoc]

/-- The source's `split()` agrees with the right-fold word extraction. -/
theorem pySplit_eq_juntar (l : List Char) : pySplitAcum l [] = juntarPalabras l := by
  rw [pySplitAcum_eq l [], juntarPalabras]
  simp

/-- `normalizar` only depends on the word sequence of the lowered text. -/
theorem normalizar_eq_palabras (q : String) :
    normalizar q = String.mk (unirConEspacios (palabrasClave q)) := by
  rw [normalizar, pySplit_eq_juntar, palabrasClave]

theorem leTs_total (a b : String × Entrada) : leTs a b = true ∨ leTs b a = true := by
  simp only [leTs, decide_eq_true_eq]
  exact Int.le_total _ _

theorem leTs_trans (a b c : String × Entrada)
    (h1 : leTs a b = true) (h2 : leTs b c = true) : leTs a c = true := by
  simp only [leTs, decide_eq_true_eq] at h1 h2 ⊢
  exact Int.le_trans h1 h2

theorem limpiar_spec (cfg : Config) (st : Estado)
    (hlen : st.memoria.length > cfg.tamanoMax)
    (hnd : (st.memoria.map Prod.fst).Nodup) :
    (limpiarCacheExceso cfg st).memoria.length =
      st.memoria.length -
        min (max (st.memoria.length - cfg.tamanoMax) (st.memoria.length / 5))
          st.memoria.length ∧
    (∀ x ∈ (limpiarCacheExceso cfg st).memoria, x ∈ st.memoria) ∧
    (∀ a ∈ st.memoria, ∀ b ∈ st.memoria,
      a ∉ (limpiarCacheExceso cfg st).memoria → b ∈ (limpiarCacheExceso cfg st).memoria →
      a.2.timestamp ≤ b.2.timestamp) := by
  have hperm := perm_ordenar leTs st.memoria
  set ordenados := ordenar leTs st.memoria with hord
  set cantidad := min (max (st.memoria.length - cfg.tamanoMax) (st.memoria.length / 5))
    ordenados.length with hcant
  set victimas := (ordenados.take cantidad).map Prod.fst with hvic
  have hresult : (limpiarCacheExceso cfg st).memoria =
      st.memoria.filter (fun e => decide (e.1 ∉ victimas)) := by
    rw [limpiarCacheExceso, if_neg (by omega)]
  have hndo : (ordenados.map Prod.fst).Nodup := ((hperm.map Prod.fst).nodup_iff).mpr hnd
  have htd : ordenados.take cantidad ++ ordenados.drop cantidad = ordenados :=
    List.take_append_drop cantidad ordenados
  have htakekeys : ∀ e ∈ ordenados.take cantidad, e.1 ∈ victimas := by
    intro e he
    exact List.mem_map.mpr ⟨e, he, rfl⟩
  have hdropkeys : ∀ e ∈ ordenados.drop cantidad, e.1 ∉ victimas := by
    intro e he hev
    have hnd2 := hndo
    rw [← htd, List.map_append] at hnd2
    rcases List.nodup_append.mp hnd2 with ⟨-, -, hdisj⟩
    exact hdisj hev (List.mem_map.mpr ⟨e, he, rfl⟩)
  have hfo : ordenados.filter (fun e => decide (e.1 ∉ victimas)) = ordenados.drop cantidad := by
    conv_lhs => rw [← htd]
    rw [List.filter_append]
    rw [List.filter_eq_nil_iff.mpr (by intro a ha; simpa using htakekeys a ha),
      List.filter_eq_self.mpr (by intro a ha; simpa using hdropkeys a ha)]
    simp
  have hpf : List.Perm (st.memoria.filter (fun e => decide (e.1 ∉ victimas)))
      (ordenados.drop cantidad) := by
    rw [← hfo]
    exact (hperm.filter _).symm
  refine ⟨?_, ?_, ?_⟩
  · rw [hresult, hpf.length_eq, List.length_drop]
    have hl := hperm.length_eq
    omega
  · intro x hx
    rw [hresult] at hx
    exact (List.mem_filter.mp hx).1
  · intro a ha b hb hnot hbin
    rw [hresult] at hnot hbin
    have haV : a.1 ∈ victimas := by
      by_contra hc
      exact hnot (List.mem_filter.mpr ⟨ha, by simpa using hc⟩)
    have hbV : b.1 ∉ victimas := by simpa using (List.mem_filter.mp hbin).2
    obtain ⟨a', ha't, haa⟩ := List.mem_map.mp haV
    have ha'mem : a' ∈ st.memoria := hperm.mem_iff.mp (List.mem_of_mem_take ha't)
    have haa' : a = a' :=
      eq_of_nodup_claves st.memoria hnd a a' ha ha'mem haa.symm
    have hbord : b ∈ ordenados := hperm.mem_iff.mpr hb
    have hbdrop : b ∈ ordenados.drop cantidad := by
      rw [← htd] at hbord
      rcases List.mem_append.mp hbord with hbt | hbd
      · exact absurd (htakekeys b hbt) hbV
      · exact hbd
    have hpw := pairwise_ordenar leTs leTs_total leTs_trans st.memoria
    rw [← hord, ← htd] at hpw
    have hle := (List.pairwise_append.mp hpw).2.2 a (haa' ▸ ha't) b hbdrop
    simpa [leTs] using hle

/-- Hex digit (0-9, a-f), the alphabet of `hexdigest()`. -/
def hexDigito (n : Nat) : Char :=
  if n < 10 then Char.ofNat (48 + n) else Char.ofNat (87 + n)

/-- A concrete deterministic stand-in for `hashlib.sha256(...).hexdigest()`
used to instantiate the witnesses: hex-encode the bytes of the reversed
input.  Like a real digest it is a pure function whose output uses only the
hex alphabet; nothing in the development depends on any other property. -/
def hashModelo (s : String) : String :=
  String.mk ((s.data.reverse.map
    (fun c => [hexDigito (c.toNat % 256 / 16), hexDigito (c.toNat % 16)])).flatten)

/-- A concrete deterministic stand-in for `len(pickle.dumps(df))`. -/
def tamanoModelo (df : DF) : Nat :=
  1 + (df.map (fun fila => 1 + fila.length)).sum

/-- A configuration as `_inicializar_cache` would build it, with the given
TTL (minutes) and memory-entry maximum, the default 50 MB entry limit, and
the concrete library stand-ins. -/
def cfgPrueba (duracionMin : Int) (maxEntradas : Nat) : Config :=
  ⟨true, duracionMin, maxEntradas, 50, hashModelo, tamanoModelo⟩

/-- The memory entry `(resultado.copy(), timestamp, tamano_bytes)` inserted
by `guardar_en_cache`: the copy is the fresh heap cell at index `h.length`. -/
def entradaNueva (cfg : Config) (h : List DF) (ahora : Int) (rref : Nat) : Entrada :=
  ⟨h.length, ahora, cfg.pickleSize (h.getD rref [])⟩

theorem guardar_cond (cfg : Config) (h : List DF) (q : String) (rref : Nat)
    (hhab : cfg.habilitado = true) (hcache : esCacheable q = true)
    (hne : h.getD rref [] ≠ []) :
    (cfg.habilitado && esCacheable q && !(h.getD rref []).isEmpty) = true := by
  have hie : (h.getD rref []).isEmpty = false := by
    cases hl : h.getD rref [] with
    | nil => exact absurd hl hne
    | cons a t => rfl
  rw [hhab, hcache, hie]
  rfl

theorem guardar_fail_eq (cfg : Config) (st : Estado) (h : List DF) (ahora : Int)
    (q : String) (p : Option (List (String × Int))) (rref : Nat)
    (hhab : cfg.habilitado = true) (hcache : esCacheable q = true)
    (hne : h.getD rref [] ≠ [])
    (hsize : cfg.pickleSize (h.getD rref []) ≤ cfg.limiteMB * 1024 * 1024) :
    guardar cfg st h ahora q p rref false =
      ({ st with
          memoria := actualizar st.memoria (generarClave cfg q p) (entradaNueva cfg h ahora rref) },
        h ++ [h.getD rref []]) := by
  rw [guardar]
  rw [if_pos (guardar_cond cfg h q rref hhab hcache hne), if_neg (by omega)]
  rfl

theorem guardar_ok_eq (cfg : Config) (st : Estado) (h : List DF) (ahora : Int)
    (q : String) (p : Option (List (String × Int))) (rref : Nat)
    (hhab : cfg.habilitado = true) (hcache : esCacheable q = true)
    (hne : h.getD rref [] ≠ [])
    (hsize : cfg.pickleSize (h.getD rref []) ≤ cfg.limiteMB * 1024 * 1024) :
    guardar cfg st h ahora q p rref true =
      (if (actualizar st.memoria (generarClave cfg q p) (entradaNueva cfg h ahora rref)).length >
          cfg.tamanoMax
       then (limpiarCacheExceso cfg
          { st with
              memoria := actualizar st.memoria (generarClave cfg q p) (entradaNueva cfg h ahora rref),
              disco := actualizar st.disco (generarClave cfg q p) (h.getD rref [], ahora),
              consultas := st.consultas + 1 },
          h ++ [h.getD rref []])
       else
          ({ st with
              memoria := actualizar st.memoria (generarClave cfg q p) (entradaNueva cfg h ahora rref),
              disco := actualizar st.disco (generarClave cfg q p) (h.getD rref [], ahora),
              consultas := st.consultas + 1 },
           h ++ [h.getD rref []])) := by
  rw [guardar]
  rw [if_pos (guardar_cond cfg h q rref hhab hcache hne), if_neg (by omega)]
  exact rfl

theorem obtener_hit_eq (cfg : Config) (st : Estado) (h : List DF) (ahora : Int)
    (q : String) (p : Option (List (String × Int))) (e : Entrada)
    (hhab : cfg.habilitado = true) (hcache : esCacheable q = true)
    (hmem : List.lookup (generarClave cfg q p) st.memoria = some e)
    (hfresh : ahora - e.timestamp < cfg.duracion * 60) :
    obtener cfg st h ahora q p =
      (some h.length, { st with hits := st.hits + 1 }, h ++ [h.getD e.valor []]) := by
  rw [obtener]
  simp only [hhab, hcache, Bool.not_true, hmem]
  rw [if_neg (by simp), if_neg (by simp), if_pos hfresh]

theorem obtener_stale_eq (cfg : Config) (st : Estado) (h : List DF) (ahora : Int)
    (q : String) (p : Option (List (String × Int))) (e : Entrada)
    (hhab : cfg.habilitado = true) (hcache : esCacheable q = true)
    (hmem : List.lookup (generarClave cfg q p) st.memoria = some e)
    (hstale : ¬ (ahora - e.timestamp < cfg.duracion * 60)) :
    obtener cfg st h ahora q p =
      obtenerDisco cfg { st with memoria := borrar st.memoria (generarClave cfg q p) }
        h ahora (generarClave cfg q p) := by
  rw [obtener]
  simp only [hhab, hcache, Bool.not_true, hmem]
  rw [if_neg (by simp), if_neg (by simp), if_neg hstale]

theorem obtener_sin_memoria_eq (cfg : Config) (st : Estado) (h : List DF) (ahora : Int)
    (q : String) (p : Option (List (String × Int)))
    (hhab : cfg.habilitado = true) (hcache : esCacheable q = true)
    (hmem : List.lookup (generarClave cfg q p) st.memoria = none) :
    obtener cfg st h ahora q p =
      obtenerDisco cfg st h ahora (generarClave cfg q p) := by
  rw [obtener]
  simp only [hhab, hcache, Bool.not_true, hmem]
  rw [if_neg (by simp), if_neg (by simp)]

/-- Claim C5: key-derivation determinism.  `_generar_clave_cache` is a pure
function (immediate in this functional embedding: it is a function of its
arguments only), and for every pair of query texts that differ only in
letter case or in whitespace — that is, whose case-folded word sequences
`palabrasClave` coincide — and every parameter map given in any entry
insertion order (a permutation of its `(name, value)` items), the derived
keys are equal. -/
theorem C5_claveDeterminista (cfg : Config) (q q' : String)
    (ps ps' : List (String × Int))
    (hpal : palabrasClave q = palabrasClave q')
    (hperm : List.Perm ps ps') :
    generarClave cfg q (some ps) = generarClave cfg q' (some ps') := by
  have hnorm : normalizar q = normalizar q' := by
    rw [normalizar_eq_palabras, normalizar_eq_palabras, hpal]
  have hsort : ordenar pairLe ps = ordenar pairLe ps' := by
    apply sorted_perm_eq pairLe pairLe_antisymm
    · exact ((perm_ordenar pairLe ps).trans hperm).trans (perm_ordenar pairLe ps').symm
    · exact pairwise_ordenar pairLe pairLe_total pairLe_trans ps
    · exact pairwise_ordenar pairLe pairLe_total pairLe_trans ps'
  have hempty : ps.isEmpty = ps'.isEmpty := by
    have hl := hperm.length_eq
    cases ps <;> cases ps' <;> simp_all
  unfold generarClave contenidoCache
  dsimp only
  rw [hnorm]
  by_cases hps : ps.isEmpty = true
  · rw [if_pos hps, if_pos (by rw [← hempty]; exact hps)]
  · rw [if_neg hps, if_neg (by rw [← hempty]; exact hps)]
    rw [reprParamsOrdenados, reprParamsOrdenados, hsort]

/-- Witness for C5 at concrete inputs: same query up to case and
whitespace, same parameters in a different insertion order. -/
theorem C5_claveDeterminista_witness :
    generarClave (cfgPrueba 15 100) "SELECT  *  FROM Ventas"
        (some [("b", 2), ("a", 1)]) =
      generarClave (cfgPrueba 15 100) " select * from ventas"
        (some [("a", 1), ("b", 2)]) :=
  C5_claveDeterminista (cfgPrueba 15 100) _ _ _ _ (by decide) (by decide)

/-- Claim C9: calling `invalidar_cache` with the empty string is treated
exactly like calling it with no pattern at all, because Python's
`if patron:` is false for `""`: the whole memory tier is cleared and every
disk-tier file is deleted, instead of pattern-matching. -/
theorem C9_patronVacio (cfg : Config) (st : Estado) :
    invalidar cfg st (some "") = invalidar cfg st none ∧
    (invalidar cfg st (some "")).memoria = [] ∧
    (invalidar cfg st (some "")).disco = [] :=
  ⟨rfl, rfl, rfl⟩

/-- Claim C8 counterexample: constructing the cache with
`CACHE_DURACION_MINUTOS = "-5"` does not fail — `int("-5")` parses, the
negative TTL is stored, and no validation runs — contradicting the claim
that an invalid numeric value such as a negative TTL raises at
construction time. -/
theorem C8_counterexample :
    inicializarConfig "-5" "100" = some (-5, 100) ∧
    (inicializarConfig "-5" "100").isSome = true := by
  constructor
  · decide
  · decide

/-- Claim C8 (amended): construction fails fast only for a *malformed*
(non-numeric) configuration string, via the `ValueError` of `int(...)`;
a negative TTL parses successfully and is accepted silently, with no
range validation. -/
theorem C8_config (envD envT : String) (hmal : pyInt envD = none) :
    inicializarConfig envD envT = none ∧
    inicializarConfig "-5" "100" = some (-5, 100) := by
  constructor
  · rw [inicializarConfig, hmal]
  · decide

/-- Witness for C8 at a concrete malformed value. -/
theorem C8_config_witness :
    inicializarConfig "abc" "100" = none ∧
    inicializarConfig "-5" "100" = some (-5, 100) :=
  C8_config "abc" "100" (by decide)

/-- TTL scenario: a one-minute cache. -/
def cfgC7 : Config := cfgPrueba 1 100

/-- Store `[[3]]` for `select 7` at t = 0 (heap holds the caller's object). -/
def escenarioC7 : Estado × List DF :=
  guardar cfgC7 estadoInicial [[[3]]] 0 "select 7" none 0 true

/-- Claim C7: TTL expiration.  (1) A memory-tier entry is served exactly
while `now - storedAt < ttl` (strict): a fresh entry is returned (as a
copy of the stored value).  (2) An expired memory entry is removed and the
lookup falls through to the disk tier: the lookup result is the same as on
the state with that memory entry already deleted.  (3) With TTL = 1 minute
and a value stored at t = 0, the lookup at t = 59 s returns it and the
lookup at t = 61 s returns absent. -/
theorem C7_expiracion :
    (∀ (cfg : Config) (st : Estado) (h : List DF) (ahora : Int) (q : String)
        (p : Option (List (String × Int))) (e : Entrada),
      cfg.habilitado = true → esCacheable q = true →
      List.lookup (generarClave cfg q p) st.memoria = some e →
      ahora - e.timestamp < cfg.duracion * 60 →
      valorDe (obtener cfg st h ahora q p) = some (h.getD e.valor [])) ∧
    (∀ (cfg : Config) (st : Estado) (h : List DF) (ahora : Int) (q : String)
        (p : Option (List (String × Int))) (e : Entrada),
      cfg.habilitado = true → esCacheable q = true →
      List.lookup (generarClave cfg q p) st.memoria = some e →
      ¬ (ahora - e.timestamp < cfg.duracion * 60) →
      obtener cfg st h ahora q p =
        obtener cfg { st with memoria := borrar st.memoria (generarClave cfg q p) }
          h ahora q p) ∧
    valorDe (obtener cfgC7 escenarioC7.1 escenarioC7.2 59 "select 7" none) = some [[3]] ∧
    (obtener cfgC7 escenarioC7.1 escenarioC7.2 61 "select 7" none).1 = none := by
  refine ⟨?_, ?_, ?_, ?_⟩
  · intro cfg st h ahora q p e hhab hcache hmem hfresh
    rw [obtener_hit_eq cfg st h ahora q p e hhab hcache hmem hfresh]
    simp only [valorDe, Option.map]
    rw [getD_append_length]
  · intro cfg st h ahora q p e hhab hcache hmem hstale
    rw [obtener_stale_eq cfg st h ahora q p e hhab hcache hmem hstale]
    rw [obtener_sin_memoria_eq _ _ _ _ _ _ hhab hcache (by simp [lookup_borrar])]
  · decide
  · decide

/-- Witness for C7 part (1): the stored entry of the concrete scenario is
served at t = 59 s. -/
theorem C7_expiracion_witness :
    valorDe (obtener cfgC7 escenarioC7.1 escenarioC7.2 59 "select 7" none) =
      some (escenarioC7.2.getD 1 []) :=
  C7_expiracion.1 cfgC7 escenarioC7.1 escenarioC7.2 59 "select 7" none
    ⟨1, 0, 3⟩ rfl (by decide) (by decide) (by decide)

/-- Configuration for the failing-store scenario: default 15-minute TTL. -/
def cfgC3 : Config := cfgPrueba 15 100

/-- Store `[[7]]` for `SELECT 1` with the disk tier unwritable. -/
def escenarioC3 : Estado × List DF :=
  guardar cfgC3 estadoInicial [[[7]]] 0 "SELECT 1" none 0 false

/-- Claim C3 counterexample: after a store whose disk write fails (the
exception is caught, so nothing is raised), the immediately following
lookup of the same query *hits* — it is `some`, not the absent result the
claim requires — because `guardar_en_cache` inserts into the memory tier
(line 198) before attempting the disk write (line 201). -/
theorem C3_counterexample :
    (obtener cfgC3 escenarioC3.1 escenarioC3.2 0 "SELECT 1" none).1.isSome = true ∧
    ¬ (obtener cfgC3 escenarioC3.1 escenarioC3.2 0 "SELECT 1" none).1 = none := by
  constructor
  · decide
  · decide

/-- Claim C3 (amended): a disk-tier store failure propagates no error
(`guardar_en_cache` returns normally; the `except` at line 209 swallows
the exception), and it leaves the disk tier and the `consultas_cacheadas`
counter untouched; but because the memory-tier insert precedes the disk
write, the entry remains in memory, and a subsequent lookup of the same
query and parameters within the TTL returns the stored value (a hit), not
absent. -/
theorem C3_guardarFalla (cfg : Config) (st : Estado) (h : List DF) (ahora : Int)
    (q : String) (p : Option (List (String × Int))) (rref : Nat) (R : DF)
    (hhab : cfg.habilitado = true) (hcache : esCacheable q = true)
    (hR : h.getD rref [] = R) (hne : R ≠ [])
    (hsize : cfg.pickleSize R ≤ cfg.limiteMB * 1024 * 1024)
    (hdur : 0 < cfg.duracion) :
    (guardar cfg st h ahora q p rref false).1.disco = st.disco ∧
    (guardar cfg st h ahora q p rref false).1.consultas = st.consultas ∧
    valorDe (obtener cfg (guardar cfg st h ahora q p rref false).1
        (guardar cfg st h ahora q p rref false).2 ahora q p) = some R := by
  have hne' : h.getD rref [] ≠ [] := by rw [hR]; exact hne
  have hsize' : cfg.pickleSize (h.getD rref []) ≤ cfg.limiteMB * 1024 * 1024 := by
    rw [hR]; exact hsize
  rw [guardar_fail_eq cfg st h ahora q p rref hhab hcache hne' hsize']
  refine ⟨rfl, rfl, ?_⟩
  rw [obtener_hit_eq _ _ _ _ _ _ (entradaNueva cfg h ahora rref) hhab hcache
    (lookup_actualizar st.memoria (generarClave cfg q p) (entradaNueva cfg h ahora rref))
    (by simp only [entradaNueva]; omega)]
  simp only [valorDe, Option.map]
  rw [getD_append_length]
  simp only [entradaNueva]
  rw [getD_append_length, hR]

/-- Witness for C3 (amended) at the concrete failing-store scenario. -/
theorem C3_guardarFalla_witness :
    (guardar cfgC3 estadoInicial [[[7]]] 0 "SELECT 1" none 0 false).1.disco =
        estadoInicial.disco ∧
    (guardar cfgC3 estadoInicial [[[7]]] 0 "SELECT 1" none 0 false).1.consultas =
        estadoInicial.consultas ∧
    valorDe (obtener cfgC3 (guardar cfgC3 estadoInicial [[[7]]] 0 "SELECT 1" none 0 false).1
        (guardar cfgC3 estadoInicial [[[7]]] 0 "SELECT 1" none 0 false).2 0 "SELECT 1" none) =
      some [[7]] :=
  C3_guardarFalla cfgC3 estadoInicial [[[7]]] 0 "SELECT 1" none 0 [[7]]
    rfl (by decide) rfl (by decide) (by decide) (by decide)

/-- Claim C6: round-trip with copy isolation.  For every cacheable query,
parameters, and non-empty result `R` (an object on the heap at `rref`)
within the size limit, `store` followed immediately by `lookup` returns
`some r` where the heap cell `r` holds a value equal to `R` but `r` is a
*different object* than the caller's `rref`; and mutating the returned
copy (overwriting heap cell `r` with any `v`) does not change what a
subsequent lookup returns — it still returns a copy equal to `R`.
(`hcap` keeps the store below the eviction threshold, as the claim's
scenario — a store that simply succeeds — presumes.) -/
theorem C6_idaYVuelta (cfg : Config) (st : Estado) (h : List DF) (ahora : Int)
    (q : String) (p : Option (List (String × Int))) (rref : Nat) (R : DF)
    (hhab : cfg.habilitado = true) (hcache : esCacheable q = true)
    (hR : h.getD rref [] = R) (hne : R ≠ [])
    (hsize : cfg.pickleSize R ≤ cfg.limiteMB * 1024 * 1024)
    (hdur : 0 < cfg.duracion)
    (hcap : st.memoria.length < cfg.tamanoMax)
    (href : rref < h.length) :
    ∃ (r : Nat) (st2 : Estado) (h2 : List DF),
      obtener cfg (guardar cfg st h ahora q p rref true).1
        (guardar cfg st h ahora q p rref true).2 ahora q p = (some r, st2, h2) ∧
      h2.getD r [] = R ∧
      r ≠ rref ∧
      (∀ v : DF, valorDe (obtener cfg st2 (h2.set r v) ahora q p) = some R) := by
  have hne' : h.getD rref [] ≠ [] := by rw [hR]; exact hne
  have hsize' : cfg.pickleSize (h.getD rref []) ≤ cfg.limiteMB * 1024 * 1024 := by
    rw [hR]; exact hsize
  rw [guardar_ok_eq cfg st h ahora q p rref hhab hcache hne' hsize']
  have hlen1 : ¬ ((actualizar st.memoria (generarClave cfg q p)
      (entradaNueva cfg h ahora rref)).length > cfg.tamanoMax) := by
    have := length_actualizar_le st.memoria (generarClave cfg q p) (entradaNueva cfg h ahora rref)
    omega
  rw [if_neg hlen1]
  dsimp only
  rw [obtener_hit_eq _ _ _ _ _ _ (entradaNueva cfg h ahora rref) hhab hcache
    (lookup_actualizar st.memoria (generarClave cfg q p) (entradaNueva cfg h ahora rref))
    (by simp only [entradaNueva]; omega)]
  refine ⟨(h ++ [h.getD rref []]).length, _, _, rfl, ?_, ?_, ?_⟩
  · rw [getD_append_length]
    simp only [entradaNueva]
    rw [getD_append_length, hR]
  · simp only [List.length_append, List.length_cons, List.length_nil]
    omega
  · intro v
    rw [obtener_hit_eq _ _ _ _ _ _ (entradaNueva cfg h ahora rref) hhab hcache
      (lookup_actualizar st.memoria (generarClave cfg q p) (entradaNueva cfg h ahora rref))
      (by simp only [entradaNueva]; omega)]
    simp only [valorDe, Option.map]
    rw [getD_append_length]
    simp only [entradaNueva]
    have hij : (h ++ [h.getD rref []]).length ≠ h.length := by
      simp only [List.length_append, List.length_cons, List.length_nil]
      omega
    have hlt : h.length < (h ++ [h.getD rref []]).length := by
      simp only [List.length_append, List.length_cons, List.length_nil]
      omega
    rw [getD_set_of_ne _ _ _ _ _ hij]
    rw [getD_append_of_lt _ _ _ _ hlt, getD_append_length, hR]

/-- Witness for C6 at a concrete store/lookup round trip. -/
theorem C6_idaYVuelta_witness :
    ∃ (r : Nat) (st2 : Estado) (h2 : List DF),
      obtener (cfgPrueba 15 100)
          (guardar (cfgPrueba 15 100) estadoInicial [[[4]]] 0 "select 6" none 0 true).1
          (guardar (cfgPrueba 15 100) estadoInicial [[[4]]] 0 "select 6" none 0 true).2
          0 "select 6" none = (some r, st2, h2) ∧
      h2.getD r [] = [[4]] ∧
      r ≠ 0 ∧
      (∀ v : DF,
        valorDe (obtener (cfgPrueba 15 100) st2 (h2.set r v) 0 "select 6" none) = some [[4]]) :=
  C6_idaYVuelta (cfgPrueba 15 100) estadoInicial [[[4]]] 0 "select 6" none 0 [[4]]
    rfl (by decide) rfl (by decide) (by decide) (by decide) (by decide) (by decide)

/-- Claim C10: `guardar_en_cache` puts `resultado.copy()` — an independent
copy — into the memory tier (line 198), so mutating the caller's result
object after the store (overwriting heap cell `rref` with any `v`) does
not change the value a later lookup returns. -/
theorem C10_guardarCopia (cfg : Config) (st : Estado) (h : List DF) (ahora : Int)
    (q : String) (p : Option (List (String × Int))) (rref : Nat) (R : DF)
    (hhab : cfg.habilitado = true) (hcache : esCacheable q = true)
    (hR : h.getD rref [] = R) (hne : R ≠ [])
    (hsize : cfg.pickleSize R ≤ cfg.limiteMB * 1024 * 1024)
    (hdur : 0 < cfg.duracion)
    (hcap : st.memoria.length < cfg.tamanoMax)
    (href : rref < h.length) :
    ∀ v : DF,
      valorDe (obtener cfg (guardar cfg st h ahora q p rref true).1
        (((guardar cfg st h ahora q p rref true).2).set rref v) ahora q p) = some R := by
  have hne' : h.getD rref [] ≠ [] := by rw [hR]; exact hne
  have hsize' : cfg.pickleSize (h.getD rref []) ≤ cfg.limiteMB * 1024 * 1024 := by
    rw [hR]; exact hsize
  rw [guardar_ok_eq cfg st h ahora q p rref hhab hcache hne' hsize']
  have hlen1 : ¬ ((actualizar st.memoria (generarClave cfg q p)
      (entradaNueva cfg h ahora rref)).length > cfg.tamanoMax) := by
    have := length_actualizar_le st.memoria (generarClave cfg q p) (entradaNueva cfg h ahora rref)
    omega
  rw [if_neg hlen1]
  dsimp only
  intro v
  rw [obtener_hit_eq _ _ _ _ _ _ (entradaNueva cfg h ahora rref) hhab hcache
    (lookup_actualizar st.memoria (generarClave cfg q p) (entradaNueva cfg h ahora rref))
    (by simp only [entradaNueva]; omega)]
  simp only [valorDe, Option.map]
  rw [getD_append_length]
  simp only [entradaNueva]
  rw [getD_set_of_ne _ _ _ _ _ (by omega)]
  rw [getD_append_length, hR]

/-- Witness for C10: mutating the caller's object after a concrete store
leaves the looked-up value intact. -/
theorem C10_guardarCopia_witness :
    valorDe (obtener (cfgPrueba 15 100)
      (guardar (cfgPrueba 15 100) estadoInicial [[[8]]] 0 "select 10" none 0 true).1
      (((guardar (cfgPrueba 15 100) estadoInicial [[[8]]] 0 "select 10" none 0 true).2).set 0 [[9]])
      0 "select 10" none) = some [[8]] :=
  C10_guardarCopia (cfgPrueba 15 100) estadoInicial [[[8]]] 0 "select 10" none 0 [[8]]
    rfl (by decide) rfl (by decide) (by decide) (by decide) (by decide) (by decide) [[9]]

/-- One store step: allocate the caller's DataFrame on the heap, then
store it (disk writable). -/
def pasoGuardar (cfg : Config) (acc : Estado × List DF) (t : Int) (q : String) (df : DF) :
    Estado × List DF :=
  guardar cfg acc.1 (acc.2 ++ [df]) t q none acc.2.length true

/-- Two-entry cache for the eviction frame scenario. -/
def cfgC4 : Config := cfgPrueba 15 2

/-- Two stores: below the capacity, no eviction. -/
def escenarioC4previo : Estado × List DF :=
  pasoGuardar cfgC4 (pasoGuardar cfgC4 (estadoInicial, []) 0 "select 1" [[1]]) 1 "select 2" [[2]]

/-- A third store: the memory tier reaches 3 > 2 and eviction runs. -/
def escenarioC4 : Estado × List DF :=
  pasoGuardar cfgC4 escenarioC4previo 2 "select 3" [[3]]

/-- Claim C4 counterexample: before the third store the disk-tier entry of
`select 1` exists; the capacity eviction triggered by the third store
removes `select 1` from the memory tier *and deletes its disk-tier file*
(`_limpiar_cache_exceso` lines 233-237), so the set of disk-tier files is
changed by a capacity eviction, contradicting the claim. -/
theorem C4_counterexample :
    (List.lookup (generarClave cfgC4 "select 1" none) escenarioC4previo.1.disco).isSome = true ∧
    List.lookup (generarClave cfgC4 "select 1" none) escenarioC4.1.disco = none ∧
    List.lookup (generarClave cfgC4 "select 1" none) escenarioC4.1.memoria = none := by
  refine ⟨by decide, by decide, by decide⟩

/-- Claim C4 (amended): capacity eviction is *not* memory-only — for every
evicted key the eviction also unlinks that key's disk-tier file.
Precisely, when eviction runs, a pre-existing disk entry survives it if
and only if its key was not evicted from the memory tier (keys never in
the memory tier survive vacuously). -/
theorem C4_desalojoDisco (cfg : Config) (st : Estado)
    (hlen : st.memoria.length > cfg.tamanoMax) :
    ∀ kv ∈ st.disco,
      (kv ∈ (limpiarCacheExceso cfg st).disco ↔
        (kv.1 ∈ st.memoria.map Prod.fst →
          kv.1 ∈ (limpiarCacheExceso cfg st).memoria.map Prod.fst)) := by
  intro kv hkv
  set ordenados := ordenar leTs st.memoria with hord
  set cantidad := min (max (st.memoria.length - cfg.tamanoMax) (st.memoria.length / 5))
    ordenados.length with hcant
  set victimas := (ordenados.take cantidad).map Prod.fst with hvic
  have hmem' : (limpiarCacheExceso cfg st).memoria =
      st.memoria.filter (fun e => decide (e.1 ∉ victimas)) := by
    rw [limpiarCacheExceso, if_neg (by omega)]
  have hdis' : (limpiarCacheExceso cfg st).disco =
      st.disco.filter (fun e => decide (e.1 ∉ victimas)) := by
    rw [limpiarCacheExceso, if_neg (by omega)]
  constructor
  · intro hin hkey
    rw [hdis'] at hin
    have hP : kv.1 ∉ victimas := by simpa using (List.mem_filter.mp hin).2
    obtain ⟨a, ha, hafst⟩ := List.mem_map.mp hkey
    rw [hmem']
    exact List.mem_map.mpr ⟨a, List.mem_filter.mpr ⟨ha, by simpa [hafst] using hP⟩, hafst⟩
  · intro himp
    rw [hdis']
    refine List.mem_filter.mpr ⟨hkv, ?_⟩
    simp only [decide_eq_true_eq]
    intro hvicm
    obtain ⟨a, hatake, hafst⟩ := List.mem_map.mp hvicm
    have hamem : a ∈ st.memoria :=
      (perm_ordenar leTs st.memoria).mem_iff.mp (List.mem_of_mem_take hatake)
    have hkeys : kv.1 ∈ st.memoria.map Prod.fst := List.mem_map.mpr ⟨a, hamem, hafst⟩
    have hres := himp hkeys
    rw [hmem'] at hres
    obtain ⟨b, hb, hbfst⟩ := List.mem_map.mp hres
    have hbP : b.1 ∉ victimas := by simpa using (List.mem_filter.mp hb).2
    exact hbP (by rw [hbfst]; exact hvicm)

/-- A concrete over-capacity state for the C4 witness. -/
def estadoC4w : Estado :=
  ⟨[("a", ⟨0, 0, 1⟩), ("b", ⟨1, 1, 1⟩)], [("a", ([[1]], 0)), ("b", ([[2]], 1))], 0, 0, 0⟩

/-- Witness for C4 (amended) at a concrete over-capacity eviction and a
concrete disk entry (the one whose key gets evicted). -/
theorem C4_desalojoDisco_witness :
    ((("a", ([[1]], 0)) : String × (DF × Int)) ∈
        (limpiarCacheExceso (cfgPrueba 15 1) estadoC4w).disco ↔
      ((("a", ([[1]], 0)) : String × (DF × Int)).1 ∈ estadoC4w.memoria.map Prod.fst →
        (("a", ([[1]], 0)) : String × (DF × Int)).1 ∈
          (limpiarCacheExceso (cfgPrueba 15 1) estadoC4w).memoria.map Prod.fst)) :=
  C4_desalojoDisco (cfgPrueba 15 1) estadoC4w (by decide)
    (("a", ([[1]], 0)) : String × (DF × Int)) (by decide)

/-- Capacity-eviction scenario: `maxMemoryEntries = 10`. -/
def cfgC1 : Config := cfgPrueba 15 10

/-- The i-th distinct cacheable query of the eviction scenario. -/
def consultaC1 (i : Nat) : String := "select " ++ String.singleton (hexDigito i)

/-- Fifteen distinct cacheable non-empty results stored at times 0..14. -/
def estadoC1 : Estado × List DF :=
  (List.range 15).foldl
    (fun acc i => pasoGuardar cfgC1 acc (Int.ofNat i) (consultaC1 i) [[(Int.ofNat i)]])
    (estadoInicial, [])

set_option maxRecDepth 8000 in
set_option maxHeartbeats 2000000 in
/-- Claim C1 counterexample: with `maxMemoryEntries = 10`, storing 15
distinct cacheable non-empty results leaves the memory tier with **9**
entries and the **6** oldest-inserted entries absent (eviction fires at
the 11th, 13th and 15th store, each time removing
`max(11 - 10, int(11 * 0.2)) = 2` oldest entries) — not "exactly the 5
oldest absent" as the claim states, and not the `ceil(count * 0.2)`
formula (`int()` truncates: at count 11 the code removes 2, the claim's
`max(1, ceil(2.2)) = 3`). -/
theorem C1_counterexample :
    estadoC1.1.memoria.length = 9 ∧
    ((List.range 15).filter
      (fun i => (List.lookup (generarClave cfgC1 (consultaC1 i) none)
        estadoC1.1.memoria).isNone)).length = 6 ∧
    (List.range 15).all
      (fun i => (List.lookup (generarClave cfgC1 (consultaC1 i) none)
          estadoC1.1.memoria).isNone == decide (i < 6)) = true := by
  refine ⟨by decide, by decide, by decide⟩


theorem guardar_evict_eq (cfg : Config) (st : Estado) (h : List DF) (ahora : Int)
    (q : String) (p : Option (List (String × Int))) (rref : Nat)
    (hhab : cfg.habilitado = true) (hcache : esCacheable q = true)
    (hne : h.getD rref [] ≠ [])
    (hsize : cfg.pickleSize (h.getD rref []) ≤ cfg.limiteMB * 1024 * 1024)
    (hfresh : generarClave cfg q p ∉ st.memoria.map Prod.fst)
    (hover : st.memoria.length + 1 > cfg.tamanoMax) :
    (guardar cfg st h ahora q p rref true).1 =
      limpiarCacheExceso cfg
        { st with
            memoria := st.memoria ++ [(generarClave cfg q p, entradaNueva cfg h ahora rref)],
            disco := actualizar st.disco (generarClave cfg q p) (h.getD rref [], ahora),
            consultas := st.consultas + 1 } := by
  have hact : actualizar st.memoria (generarClave cfg q p) (entradaNueva cfg h ahora rref) =
      st.memoria ++ [(generarClave cfg q p, entradaNueva cfg h ahora rref)] :=
    actualizar_fresh st.memoria (generarClave cfg q p) (entradaNueva cfg h ahora rref) hfresh
  rw [guardar_ok_eq cfg st h ahora q p rref hhab hcache hne hsize]
  rw [if_pos (by rw [hact]; simp only [List.length_append, List.length_cons, List.length_nil]; omega)]
  dsimp only
  rw [hact]

/-- Claim C1 (amended): capacity eviction.  A store of a distinct
cacheable non-empty result that makes the memory-tier count `n` exceed
`maxMemoryEntries` runs eviction synchronously, leaving exactly
`n - min(max(n - maxMemoryEntries, floor(n * 0.2)), n)` entries
(`int(len * 0.2)` truncates — floor, not ceiling), removing only existing
entries, and selecting the entries with oldest `storedAt` first: every
evicted entry's timestamp is at most every surviving entry's timestamp.
(Consequently — see `C1_counterexample` — with `maxMemoryEntries = 10`,
storing 15 distinct results leaves 9 entries, the 6 oldest-inserted ones
being the absent ones.) -/
theorem C1_desalojo (cfg : Config) (st : Estado) (h : List DF) (ahora : Int)
    (q : String) (p : Option (List (String × Int))) (rref : Nat)
    (hhab : cfg.habilitado = true) (hcache : esCacheable q = true)
    (hne : h.getD rref [] ≠ [])
    (hsize : cfg.pickleSize (h.getD rref []) ≤ cfg.limiteMB * 1024 * 1024)
    (hfresh : generarClave cfg q p ∉ st.memoria.map Prod.fst)
    (hnd : (st.memoria.map Prod.fst).Nodup)
    (hover : st.memoria.length + 1 > cfg.tamanoMax) :
    (guardar cfg st h ahora q p rref true).1.memoria.length =
      (st.memoria.length + 1) -
        min (max (st.memoria.length + 1 - cfg.tamanoMax) ((st.memoria.length + 1) / 5))
          (st.memoria.length + 1) ∧
    (∀ x ∈ (guardar cfg st h ahora q p rref true).1.memoria,
      x ∈ st.memoria ++ [(generarClave cfg q p, entradaNueva cfg h ahora rref)]) ∧
    (∀ a ∈ st.memoria ++ [(generarClave cfg q p, entradaNueva cfg h ahora rref)],
     ∀ b ∈ st.memoria ++ [(generarClave cfg q p, entradaNueva cfg h ahora rref)],
      a ∉ (guardar cfg st h ahora q p rref true).1.memoria →
      b ∈ (guardar cfg st h ahora q p rref true).1.memoria →
      a.2.timestamp ≤ b.2.timestamp) := by
  rw [guardar_evict_eq cfg st h ahora q p rref hhab hcache hne hsize hfresh hover]
  have hnd2 : (((st.memoria ++ [(generarClave cfg q p, entradaNueva cfg h ahora rref)]).map
      Prod.fst)).Nodup := by
    rw [List.map_append, List.map_cons, List.map_nil, List.nodup_append]
    refine ⟨hnd, List.nodup_singleton _, ?_⟩
    intro x hx hx1
    rw [List.mem_singleton] at hx1
    rw [hx1] at hx
    exact hfresh hx
  have hspec := limpiar_spec cfg
    { st with
        memoria := st.memoria ++ [(generarClave cfg q p, entradaNueva cfg h ahora rref)],
        disco := actualizar st.disco (generarClave cfg q p) (h.getD rref [], ahora),
        consultas := st.consultas + 1 }
    (by simp only [List.length_append, List.length_cons, List.length_nil]; omega)
    hnd2
  obtain ⟨hl, hs, ho⟩ := hspec
  simp only [List.length_append, List.length_cons, List.length_nil] at hl
  refine ⟨?_, hs, ho⟩
  rw [hl]

/-- A one-entry state for the C1 witness (`maxMemoryEntries = 1`). -/
def estadoC1w : Estado := ⟨[("a", ⟨0, 0, 1⟩)], [], 0, 0, 0⟩

/-- Witness for C1 (amended) at a concrete over-capacity store. -/
theorem C1_desalojo_witness :
    (guardar (cfgPrueba 15 1) estadoC1w [[[5]]] 5 "select 2" none 0 true).1.memoria.length =
      (estadoC1w.memoria.length + 1) -
        min (max (estadoC1w.memoria.length + 1 - (cfgPrueba 15 1).tamanoMax)
          ((estadoC1w.memoria.length + 1) / 5)) (estadoC1w.memoria.length + 1) ∧
    (∀ x ∈ (guardar (cfgPrueba 15 1) estadoC1w [[[5]]] 5 "select 2" none 0 true).1.memoria,
      x ∈ estadoC1w.memoria ++ [(generarClave (cfgPrueba 15 1) "select 2" none,
        entradaNueva (cfgPrueba 15 1) [[[5]]] 5 0)]) ∧
    (∀ a ∈ estadoC1w.memoria ++ [(generarClave (cfgPrueba 15 1) "select 2" none,
        entradaNueva (cfgPrueba 15 1) [[[5]]] 5 0)],
     ∀ b ∈ estadoC1w.memoria ++ [(generarClave (cfgPrueba 15 1) "select 2" none,
        entradaNueva (cfgPrueba 15 1) [[[5]]] 5 0)],
      a ∉ (guardar (cfgPrueba 15 1) estadoC1w [[[5]]] 5 "select 2" none 0 true).1.memoria →
      b ∈ (guardar (cfgPrueba 15 1) estadoC1w [[[5]]] 5 "select 2" none 0 true).1.memoria →
      a.2.timestamp ≤ b.2.timestamp) :=
  C1_desalojo (cfgPrueba 15 1) estadoC1w [[[5]]] 5 "select 2" none 0
    rfl (by decide) (by decide) (by decide) (by decide) (by decide) (by decide)

/-- Configuration for the pattern-invalidation scenario. -/
def cfgC2 : Config := cfgPrueba 15 100

/-- Results for an `orders` query and a `products` query, both stored. -/
def escenarioC2 : Estado × List DF :=
  pasoGuardar cfgC2 (pasoGuardar cfgC2 (estadoInicial, []) 0 "SELECT * FROM orders" [[1]])
    0 "SELECT * FROM products" [[2]]

/-- Claim C2, evaluated at its failing input: after storing results for an
`orders`-referencing and a `products`-referencing query,
`invalidar_cache("orders")` removes **nothing** — the code matches the
pattern against `_generar_clave_cache(clave)`, the hex re-digest of the
already-hashed key, which consists only of hex characters and can never
contain `"orders"` — so both memory entries (and both disk files) survive
and a subsequent lookup of the `orders` query still hits, contradicting
the claim that exactly the `orders`-referencing entries are removed. -/
theorem C2_codigo :
    (invalidar cfgC2 escenarioC2.1 (some "orders")).memoria = escenarioC2.1.memoria ∧
    (invalidar cfgC2 escenarioC2.1 (some "orders")).disco = escenarioC2.1.disco ∧
    (List.lookup (generarClave cfgC2 "SELECT * FROM orders" none)
      (invalidar cfgC2 escenarioC2.1 (some "orders")).memoria).isSome = true ∧
    (obtener cfgC2 (invalidar cfgC2 escenarioC2.1 (some "orders")) escenarioC2.2 0
      "SELECT * FROM orders" none).1.isSome = true := by
  refine ⟨by decide, by decide, by decide, by decide⟩
